import Mathlib

/-!
Shallow embedding of `internal/services/providers/eks/client/aws.go`: the AWS
client facade (construction options, the three memoized scalar getters, the
tag-matching helper `getClusterName`, and the chunked batch instance lookup).

Go `*string` / `*ec2.Tag` pointer fields that the code nil-checks are embedded
as `Option`; Go `error` results are `Except String` carrying the exact message
the code formats; remote collaborators (the `ec2metadata` client, the EC2
`DescribeInstances` call, `session.NewSession`, credential resolution) are
passed as deterministic oracles.  A Go nil-pointer dereference is embedded as
the `panicked` outcome, distinct from a returned error.  Getters additionally
return the number of remote calls performed, and the batch lookup returns the
list of requests it issued, so call-count claims are statable.
-/

namespace AwsClient

/-- One `ec2.Tag`: both `Key` and `Value` are `*string` in the SDK, so both are
optional here. -/
structure Tag where
  key : Option String
  value : Option String
deriving DecidableEq

/-- One `ec2.Instance`, restricted to the only field the client reads; the
`Tags` slice holds pointers, so entries are optional. -/
structure Instance where
  tags : List (Option Tag)
deriving DecidableEq

/-- One `ec2.Reservation`, restricted to `Instances`. -/
structure Reservation where
  instances : List Instance
deriving DecidableEq

/-- One `ec2.DescribeInstancesOutput`, restricted to `Reservations`. -/
structure DescribeInstancesOutput where
  reservations : List Reservation
deriving DecidableEq

/-- One `ec2.Filter` with its name and values. -/
structure Filter where
  name : String
  values : List String
deriving DecidableEq

/-- One `ec2.DescribeInstancesInput`: `GetClusterName` sets `InstanceIds`,
`GetInstancesByInstanceIDs` sets `Filters`. -/
structure DescribeInstancesInput where
  instanceIds : List String := []
  filters : List Filter := []
deriving DecidableEq

/-- Constant `tagEKSK8sCluster` (aws.go:51). -/
def tagEKSK8sCluster : String := "k8s.io/cluster/"

/-- Constant `tagEKSKubernetesCluster` (aws.go:52). -/
def tagEKSKubernetesCluster : String := "kubernetes.io/cluster/"

/-- Constant `tagKOPSKubernetesCluster` (aws.go:53). -/
def tagKOPSKubernetesCluster : String := "KubernetesCluster"

/-- Constant `owned` (aws.go:54). -/
def owned : String := "owned"

/-- Variable `eksClusterTags` (aws.go:57-62): the two ownership prefixes, in
source order. -/
def eksClusterTags : List String := [tagEKSK8sCluster, tagEKSKubernetesCluster]

/-- Go `strings.HasPrefix`, on the underlying character list (the constants in
play are ASCII, so byte and character prefixes coincide). -/
def hasPref (s pre : String) : Bool :=
  pre.data.isPrefixOf s.data

/-- Go `strings.TrimPrefix`: the string without the leading `pre` when
present, otherwise unchanged. -/
def trimPref (s pre : String) : String :=
  if hasPref s pre then String.mk (s.data.drop pre.data.length) else s

/-- Helper `getClusterName` (aws.go:206-221): scan the tags in order, skipping
a nil tag or one with nil key or value; for each surviving tag try the two
ownership prefixes in order (key has the prefix and value is "owned" returns
the key with the prefix trimmed), then the exact KOPS key (returns the value);
no tag matching either rule yields the empty string. -/
def getClusterName : List (Option Tag) → String
  | [] => ""
  | none :: rest => getClusterName rest
  | some ⟨none, _⟩ :: rest => getClusterName rest
  | some ⟨_, none⟩ :: rest => getClusterName rest
  | some ⟨some k, some v⟩ :: rest =>
    match eksClusterTags.findSome?
        (fun clusterTag =>
          if hasPref k clusterTag ∧ v = owned then some (trimPref k clusterTag) else none) with
    | some name => name
    | none => if k = tagKOPSKubernetesCluster then v else getClusterName rest

/-- The rule of claim C1, written from the spec's words rather than from the
loop in the source: the result a single tag yields, if any — a key starting
with "k8s.io/cluster/" or "kubernetes.io/cluster/" whose value equals "owned"
yields the key with that prefix stripped; otherwise a key exactly equal to
"KubernetesCluster" yields that tag's value; anything else (including a
missing key or value) yields nothing. -/
def specTagRule : Option Tag → Option String
  | none => none
  | some ⟨none, _⟩ => none
  | some ⟨_, none⟩ => none
  | some ⟨some k, some v⟩ =>
    if hasPref k tagEKSK8sCluster ∧ v = owned then some (trimPref k tagEKSK8sCluster)
    else if hasPref k tagEKSKubernetesCluster ∧ v = owned then
      some (trimPref k tagEKSKubernetesCluster)
    else if k = tagKOPSKubernetesCluster then some v
    else none

/-- The mutable fields of `client` (aws.go:127-135) the claims observe: the
three memoized scalars, plus presence flags for the handles that the
configuration steps install (`sess`, `ec2Client`, `metaClient`). -/
structure ClientState where
  region : Option String := none
  accountID : Option String := none
  clusterName : Option String := none
  hasSess : Bool := false
  hasEc2Client : Bool := false
  hasMetaClient : Bool := false
deriving DecidableEq

/-- The fresh client `New` starts from: `&client{log: log}`, every
discoverable field nil. -/
def initialClient : ClientState := {}

/-- The EC2 instance identity document, restricted to `AccountID`. -/
structure IdentityDocument where
  accountID : String
deriving DecidableEq

/-- Deterministic model of the `ec2metadata` collaborator: the fixed outcome
of each query the client makes. -/
structure MetaClient where
  regionResult : Except String String
  identityDocument : Except String IdentityDocument
  metadata : String → Except String String

/-- Deterministic model of the EC2 `DescribeInstancesWithContext` call. -/
abbrev Ec2Api := DescribeInstancesInput → Except String DescribeInstancesOutput

/-- Method `client.GetRegion` (aws.go:137-150): return the cached region if
set, else one metadata call, caching on success.  The result triple is
(outcome, updated client state, number of remote calls performed). -/
def GetRegion (c : ClientState) (meta : MetaClient) :
    Except String String × ClientState × Nat :=
  match c.region with
  | some r => (.ok r, c, 0)
  | none =>
    match meta.regionResult with
    | .error e => (.error e, c, 1)
    | .ok region => (.ok region, { c with region := some region }, 1)

/-- Method `client.GetAccountID` (aws.go:152-165): return the cached account
ID if set, else fetch the identity document and cache its `AccountID`. -/
def GetAccountID (c : ClientState) (meta : MetaClient) :
    Except String String × ClientState × Nat :=
  match c.accountID with
  | some a => (.ok a, c, 0)
  | none =>
    match meta.identityDocument with
    | .error e => (.error e, c, 1)
    | .ok resp => (.ok resp.accountID, { c with accountID := some resp.accountID }, 1)

/-- Message of the error wrap at aws.go:174. -/
def instanceIDErrMsg (e : String) : String :=
  "getting instance id from metadata: " ++ e

/-- Message of the error wrap at aws.go:181. -/
def describeErrMsg (instanceID e : String) : String :=
  "describing instance_id=" ++ instanceID ++ ": " ++ e

/-- Message of the error at aws.go:185. -/
def noReservationsMsg (instanceID : String) : String :=
  "no reservations found for instance_id=" ++ instanceID

/-- Message of the error at aws.go:189. -/
def noInstancesMsg (instanceID : String) : String :=
  "no instances found for instance_id=" ++ instanceID

/-- Message of the error at aws.go:193. -/
def noTagsMsg (instanceID : String) : String :=
  "no tags found for instance_id=" ++ instanceID

/-- Message of the error at aws.go:198. -/
def tagNotFoundMsg (instanceID : String) : String :=
  "discovering cluster name: instance cluster tags not found for instance_id=" ++ instanceID

/-- Method `client.GetClusterName` (aws.go:167-204): return the cached name if
set; else read "instance-id" from metadata, describe that instance, validate
the response shape (reservations, instances, tags, each emptiness a distinct
error), run the tag scan, treat an empty scan result as "tags not found", and
cache the discovered name.  The result triple is (outcome, updated client
state, number of remote calls performed). -/
def GetClusterName (c : ClientState) (meta : MetaClient) (ec2 : Ec2Api) :
    Except String String × ClientState × Nat :=
  match c.clusterName with
  | some n => (.ok n, c, 0)
  | none =>
    match meta.metadata "instance-id" with
    | .error e => (.error (instanceIDErrMsg e), c, 1)
    | .ok instanceID =>
      match ec2 { instanceIds := [instanceID] } with
      | .error e => (.error (describeErrMsg instanceID e), c, 2)
      | .ok resp =>
        match resp.reservations with
        | [] => (.error (noReservationsMsg instanceID), c, 2)
        | r0 :: _ =>
          match r0.instances with
          | [] => (.error (noInstancesMsg instanceID), c, 2)
          | i0 :: _ =>
            match i0.tags with
            | [] => (.error (noTagsMsg instanceID), c, 2)
            | _ :: _ =>
              let clusterName := getClusterName i0.tags
              if clusterName = "" then (.error (tagNotFoundMsg instanceID), c, 2)
              else (.ok clusterName, { c with clusterName := some clusterName }, 2)

/-- Constant `batchSize` (aws.go:231). -/
def batchSize : Nat := 20

/-- Fuel-indexed body of the batching loop's slicing (aws.go:232-233): while
elements remain, slice off `l[i : min(i+batchSize, len(l))]` and continue at
`i + batchSize`; the fuel only bounds the iteration count and is immaterial
whenever it is at least the list length. -/
def chunksOfAux : Nat → List α → List (List α)
  | _, [] => []
  | 0, _ :: _ => []
  | fuel + 1, x :: xs =>
    (x :: xs).take batchSize :: chunksOfAux fuel ((x :: xs).drop batchSize)

/-- The consecutive batches of at most `batchSize` identifiers that the loop
at aws.go:232 iterates over, in input order. -/
def chunksOf (l : List α) : List (List α) :=
  chunksOfAux l.length l

/-- The `DescribeInstancesInput` built for one batch (aws.go:235-242): a
single "instance-id" filter holding the batch. -/
def batchRequest (batch : List String) : DescribeInstancesInput :=
  { filters := [{ name := "instance-id", values := batch }] }

/-- Body of the batching loop (aws.go:232-252): issue one describe call per
batch in order, appending every reservation's instances to the accumulator; a
failed call aborts immediately with the wrapped error and no instance list.
Also returns the requests issued, in order. -/
def runBatches (ec2 : Ec2Api) :
    List (List String) → List Instance →
    Except String (List Instance) × List DescribeInstancesInput
  | [], acc => (.ok acc, [])
  | b :: bs, acc =>
    let req := batchRequest b
    match ec2 req with
    | .error e => (.error ("describing instances: " ++ e), [req])
    | .ok resp =>
      let acc' := acc ++ (resp.reservations.map Reservation.instances).flatten
      let rest := runBatches ec2 bs acc'
      (rest.1, req :: rest.2)

/-- Method `client.GetInstancesByInstanceIDs` (aws.go:223-255): run the
batching loop over the chunks of the identifier list, starting from an empty
accumulator.  The pair is (outcome, requests issued in order). -/
def GetInstancesByInstanceIDs (ec2 : Ec2Api) (instanceIDs : List String) :
    Except String (List Instance) × List DescribeInstancesInput :=
  runBatches ec2 (chunksOf instanceIDs) []

/-- Outcome of applying one configuration step: success with the updated
state, a returned Go error, or a runtime panic (nil-pointer dereference). -/
inductive StepResult where
  | ok (c : ClientState)
  | err (msg : String)
  | panicked (msg : String)
deriving DecidableEq

/-- Whether a step outcome is a returned error (as opposed to success or a
panic). -/
def StepResult.isErr : StepResult → Bool
  | .err _ => true
  | _ => false

/-- Type `Opt` (aws.go:65): one configuration step. -/
abbrev Opt := ClientState → StepResult

/-- The message of a Go nil-pointer dereference panic. -/
def nilDerefMsg : String :=
  "runtime error: invalid memory address or nil pointer dereference"

/-- Option `WithEC2Client` (aws.go:68-83): builds a session from `*c.region`
— dereferencing a nil region is a panic, not an error; a failed session
construction is wrapped as an error; on success the session and EC2 handles
are installed.  `newSession` is the oracle for `session.NewSession` given the
region. -/
def WithEC2Client (newSession : String → Except String Unit) : Opt := fun c =>
  match c.region with
  | none => .panicked nilDerefMsg
  | some region =>
    match newSession region with
    | .error e => .err ("creating aws sdk session: " ++ e)
    | .ok _ => .ok { c with hasSess := true, hasEc2Client := true }

/-- Option `WithValidateCredentials` (aws.go:86-93): resolves the configured
session's credentials once (`credGet` is the oracle); reading `c.sess.Config`
off a nil session is a panic; otherwise only a failure is observable. -/
def WithValidateCredentials (credGet : Except String Unit) : Opt := fun c =>
  if c.hasSess then
    match credGet with
    | .error e => .err ("validating aws credentials: " ++ e)
    | .ok _ => .ok c
  else .panicked nilDerefMsg

/-- Option `WithMetadata` (aws.go:97-104): statically injects the three
scalars. -/
def WithMetadata (accountID region clusterName : String) : Opt := fun c =>
  .ok { c with
        accountID := some accountID
        region := some region
        clusterName := some clusterName }

/-- Option `WithMetadataDiscovery` (aws.go:107-125): creates the metadata
session (`newSession` oracle), installs the metadata client, and eagerly
discovers the region from it. -/
def WithMetadataDiscovery (newSession : Except String Unit) (meta : MetaClient) :
    Opt := fun c =>
  match newSession with
  | .error e => .err ("creating metadata session: " ++ e)
  | .ok _ =>
    match meta.regionResult with
    | .error e => .err ("getting instance region: " ++ e)
    | .ok region => .ok { c with hasMetaClient := true, region := some region }

/-- The option loop of `New` (aws.go:41-45): apply each step in order,
stopping at the first error (or panic). -/
def runOpts : List Opt → ClientState → StepResult
  | [], c => .ok c
  | o :: os, c =>
    match o c with
    | .ok c' => runOpts os c'
    | .err e => .err e
    | .panicked m => .panicked m

/-- Constructor `New` (aws.go:38-48): apply every configuration step in order
to a fresh zero-valued client. -/
def New (opts : List Opt) : StepResult :=
  runOpts opts initialClient

/-- Fixture: a metadata collaborator whose every query succeeds, answering
"i-1" for the instance id. -/
def metaFix : MetaClient :=
  { regionResult := .ok "us-east-1"
    identityDocument := .ok ⟨"12345"⟩
    metadata := fun _ => .ok "i-1" }

/-- Fixture: a describe call that succeeds with zero reservations. -/
def ec2NoReservations : Ec2Api := fun _ => .ok ⟨[]⟩

/-- Fixture: a describe call whose single instance carries one tag whose key
is exactly the ownership prefix "k8s.io/cluster/" with value "owned". -/
def ec2OwnedRootTag : Ec2Api := fun _ =>
  .ok ⟨[⟨[⟨[some ⟨some "k8s.io/cluster/", some "owned"⟩]⟩]⟩]⟩

lemma chunksOfAux_fuel (f1 f2 : Nat) (l : List α) (h1 : l.length ≤ f1)
    (h2 : l.length ≤ f2) : chunksOfAux f1 l = chunksOfAux f2 l := by
  induction f1 generalizing f2 l with
  | zero =>
    match l with
    | [] => cases f2 <;> rfl
    | x :: xs => simp at h1
  | succ f1 ih =>
    match l with
    | [] => cases f2 <;> rfl
    | x :: xs =>
      match f2 with
      | 0 => simp at h2
      | f2 + 1 =>
        simp only [chunksOfAux]
        congr 1
        apply ih
        · simp only [List.length_drop, List.length_cons, batchSize] at h1 ⊢
          omega
        · simp only [List.length_drop, List.length_cons, batchSize] at h2 ⊢
          omega

lemma chunksOf_cons (x : α) (xs : List α) :
    chunksOf (x :: xs) = (x :: xs).take batchSize :: chunksOf ((x :: xs).drop batchSize) := by
  simp only [chunksOf, List.length_cons, chunksOfAux]
  congr 1
  apply chunksOfAux_fuel
  · simp only [List.length_drop, List.length_cons, batchSize]
    omega
  · rfl

lemma chunksOf_flatten (l : List α) : (chunksOf l).flatten = l := by
  match l with
  | [] => rfl
  | x :: xs =>
    rw [chunksOf_cons, List.flatten_cons, chunksOf_flatten ((x :: xs).drop batchSize),
      List.take_append_drop]
termination_by l.length
decreasing_by simp only [List.length_drop, List.length_cons, batchSize]; omega

lemma chunksOf_length_le (l : List α) : ∀ b ∈ chunksOf l, b.length ≤ batchSize := by
  match l with
  | [] => intro b hb; simp [chunksOf, chunksOfAux] at hb
  | x :: xs =>
    intro b hb
    rw [chunksOf_cons] at hb
    rcases List.mem_cons.mp hb with h | h
    · subst h
      simp
    · exact chunksOf_length_le ((x :: xs).drop batchSize) b h
termination_by l.length
decreasing_by simp only [List.length_drop, List.length_cons, batchSize]; omega

lemma runBatches_ok (ec2ok : DescribeInstancesInput → DescribeInstancesOutput)
    (bs : List (List String)) (acc : List Instance) :
    runBatches (fun req => .ok (ec2ok req)) bs acc =
      (.ok (acc ++ (bs.map (fun b =>
          ((ec2ok (batchRequest b)).reservations.map Reservation.instances).flatten)).flatten),
       bs.map batchRequest) := by
  induction bs generalizing acc with
  | nil => simp [runBatches]
  | cons b bs ih => simp [runBatches, ih]

lemma runBatches_abort (ec2 : Ec2Api) (bs1 : List (List String)) (b : List String)
    (bs2 : List (List String)) (e : String)
    (hok : ∀ b' ∈ bs1, ∃ out, ec2 (batchRequest b') = .ok out)
    (hfail : ec2 (batchRequest b) = .error e) (acc : List Instance) :
    (runBatches ec2 (bs1 ++ b :: bs2) acc).1 = .error ("describing instances: " ++ e) := by
  induction bs1 generalizing acc with
  | nil => simp [runBatches, hfail]
  | cons b' bs1 ih =>
    obtain ⟨out, hout⟩ := hok b' (by simp)
    simp only [List.cons_append, runBatches, hout]
    exact ih (fun x hx => hok x (by simp [hx])) _

lemma append_ne_append_left {a b : String} (c : String) (h : a.length ≠ b.length) :
    a ++ c ≠ b ++ c := by
  intro hab
  apply h
  have hl := congrArg String.length hab
  simp only [String.length_append] at hl
  omega

lemma GetRegion_shape (c : ClientState) (meta : MetaClient) :
    (∃ r, c.region = some r ∧ GetRegion c meta = (.ok r, c, 0)) ∨
    (∃ e, GetRegion c meta = (.error e, c, 1)) ∨
    (∃ r, GetRegion c meta = (.ok r, { c with region := some r }, 1)) := by
  cases hr : c.region with
  | some r => exact Or.inl ⟨r, rfl, by simp [GetRegion, hr]⟩
  | none =>
    cases hm : meta.regionResult with
    | error e => exact Or.inr (Or.inl ⟨e, by simp [GetRegion, hr, hm]⟩)
    | ok r => exact Or.inr (Or.inr ⟨r, by simp [GetRegion, hr, hm]⟩)

lemma GetAccountID_shape (c : ClientState) (meta : MetaClient) :
    (∃ a, c.accountID = some a ∧ GetAccountID c meta = (.ok a, c, 0)) ∨
    (∃ e, GetAccountID c meta = (.error e, c, 1)) ∨
    (∃ a, GetAccountID c meta = (.ok a, { c with accountID := some a }, 1)) := by
  cases ha : c.accountID with
  | some a => exact Or.inl ⟨a, rfl, by simp [GetAccountID, ha]⟩
  | none =>
    cases hm : meta.identityDocument with
    | error e => exact Or.inr (Or.inl ⟨e, by simp [GetAccountID, ha, hm]⟩)
    | ok doc => exact Or.inr (Or.inr ⟨doc.accountID, by simp [GetAccountID, ha, hm]⟩)

lemma GetClusterName_shape (c : ClientState) (meta : MetaClient) (ec2 : Ec2Api) :
    (∃ n, c.clusterName = some n ∧ GetClusterName c meta ec2 = (.ok n, c, 0)) ∨
    (∃ e k, GetClusterName c meta ec2 = (.error e, c, k) ∧ 1 ≤ k) ∨
    (∃ v, GetClusterName c meta ec2 = (.ok v, { c with clusterName := some v }, 2)) := by
  cases hn : c.clusterName with
  | some n => exact Or.inl ⟨n, rfl, by simp [GetClusterName, hn]⟩
  | none =>
    cases hm : meta.metadata "instance-id" with
    | error e =>
      exact Or.inr (Or.inl ⟨instanceIDErrMsg e, 1,
        by simp [GetClusterName, hn, hm], by omega⟩)
    | ok iid =>
      cases he : ec2 { instanceIds := [iid] } with
      | error e =>
        exact Or.inr (Or.inl ⟨describeErrMsg iid e, 2,
          by simp [GetClusterName, hn, hm, he], by omega⟩)
      | ok resp =>
        cases hres : resp.reservations with
        | nil =>
          exact Or.inr (Or.inl ⟨noReservationsMsg iid, 2,
            by simp [GetClusterName, hn, hm, he, hres], by omega⟩)
        | cons r0 rs =>
          cases hinst : r0.instances with
          | nil =>
            exact Or.inr (Or.inl ⟨noInstancesMsg iid, 2,
              by simp [GetClusterName, hn, hm, he, hres, hinst], by omega⟩)
          | cons i0 is' =>
            cases htags : i0.tags with
            | nil =>
              exact Or.inr (Or.inl ⟨noTagsMsg iid, 2,
                by simp [GetClusterName, hn, hm, he, hres, hinst, htags], by omega⟩)
            | cons t0 ts =>
              by_cases hname : getClusterName (t0 :: ts) = ""
              · exact Or.inr (Or.inl ⟨tagNotFoundMsg iid, 2,
                  by simp [GetClusterName, hn, hm, he, hres, hinst, htags, hname], by omega⟩)
              · refine Or.inr (Or.inr ⟨getClusterName (t0 :: ts), ?_⟩)
                simp [GetClusterName, hn, hm, he, hres, hinst, htags, hname]

lemma runOpts_append_ok (os1 os2 : List Opt) (c c' : ClientState)
    (h : runOpts os1 c = .ok c') : runOpts (os1 ++ os2) c = runOpts os2 c' := by
  induction os1 generalizing c with
  | nil =>
    simp only [runOpts] at h
    cases h
    simp
  | cons o os1 ih =>
    simp only [List.cons_append, runOpts] at h ⊢
    cases ho : o c with
    | ok c1 => simp only [ho] at h ⊢; exact ih c1 h
    | err e => rw [ho] at h; cases h
    | panicked m => rw [ho] at h; cases h

/-- C1: cluster-name discovery scans the tags in their given order and returns
the result of the first tag matching either rule — an ownership-prefixed key
with value "owned" yields the key with the prefix stripped, an exact
"KubernetesCluster" key yields its value — with the empty string when no tag
matches; concretely, the first matching tag wins even when a later tag would
also match. -/
theorem getClusterName_first_match :
    (∀ tags : List (Option Tag),
      getClusterName tags = (tags.findSome? specTagRule).getD "") ∧
    getClusterName [some ⟨some "k8s.io/cluster/alpha", some "owned"⟩,
      some ⟨some "KubernetesCluster", some "beta"⟩] = "alpha" ∧
    getClusterName [some ⟨some "KubernetesCluster", some "beta"⟩,
      some ⟨some "k8s.io/cluster/alpha", some "owned"⟩] = "beta" := by
  refine ⟨?_, by decide, by decide⟩
  intro tags
  induction tags with
  | nil => rfl
  | cons t rest ih =>
    match t with
    | none => simpa [getClusterName, specTagRule, List.findSome?_cons] using ih
    | some ⟨none, v?⟩ => simpa [getClusterName, specTagRule, List.findSome?_cons] using ih
    | some ⟨some k, none⟩ => simpa [getClusterName, specTagRule, List.findSome?_cons] using ih
    | some ⟨some k, some v⟩ =>
      simp only [getClusterName, specTagRule, List.findSome?_cons, List.findSome?_nil,
        eksClusterTags]
      by_cases h1 : hasPref k tagEKSK8sCluster = true ∧ v = owned
      · rw [if_pos h1, if_pos h1]; rfl
      · rw [if_neg h1, if_neg h1]
        by_cases h2 : hasPref k tagEKSKubernetesCluster = true ∧ v = owned
        · rw [if_pos h2, if_pos h2]; rfl
        · rw [if_neg h2, if_neg h2]
          by_cases h3 : k = tagKOPSKubernetesCluster
          · rw [if_pos h3, if_pos h3]; rfl
          · rw [if_neg h3, if_neg h3]
            simpa using ih

/-- C2: the batch lookup partitions the identifier list into consecutive
chunks of at most 20 preserving input order, issues exactly one describe call
per chunk, and — when every call succeeds — returns the concatenation of every
instance across every reservation of every chunk response in chunk, then
reservation, then instance order; 45 identifiers yield exactly 3 calls with
chunk sizes 20, 20 and 5. -/
theorem GetInstancesByInstanceIDs_chunking
    (ec2ok : DescribeInstancesInput → DescribeInstancesOutput) (ids : List String) :
    (chunksOf ids).flatten = ids ∧
    (∀ b ∈ chunksOf ids, b.length ≤ batchSize) ∧
    (GetInstancesByInstanceIDs (fun req => .ok (ec2ok req)) ids).2 =
      (chunksOf ids).map batchRequest ∧
    (GetInstancesByInstanceIDs (fun req => .ok (ec2ok req)) ids).1 =
      .ok (((chunksOf ids).map (fun b =>
        ((ec2ok (batchRequest b)).reservations.map Reservation.instances).flatten)).flatten) ∧
    (chunksOf (List.replicate 45 "i")).map List.length = [20, 20, 5] ∧
    ((GetInstancesByInstanceIDs (fun _ => .ok ⟨[]⟩) (List.replicate 45 "i")).2).length = 3 := by
  refine ⟨chunksOf_flatten ids, chunksOf_length_le ids, ?_, ?_, by decide, by decide⟩
  · rw [GetInstancesByInstanceIDs, runBatches_ok]
  · rw [GetInstancesByInstanceIDs, runBatches_ok]
    simp

/-- C3: with the cluster name not cached and the metadata and describe calls
succeeding, GetClusterName fails with the "no reservations" error when the
response has zero reservations, the "no instances" error when the first
reservation is empty, the "no tags" error when the first instance has no tags,
and the "cluster tag not found" error when the tags are non-empty but the scan
matches nothing; the four messages are pairwise distinct. -/
theorem GetClusterName_distinct_errors
    (c : ClientState) (meta : MetaClient) (ec2 : Ec2Api)
    (iid : String) (resp : DescribeInstancesOutput)
    (hcn : c.clusterName = none)
    (hmeta : meta.metadata "instance-id" = .ok iid)
    (hec2 : ec2 { instanceIds := [iid] } = .ok resp) :
    (resp.reservations = [] →
      (GetClusterName c meta ec2).1 = .error (noReservationsMsg iid)) ∧
    (∀ r0 rs, resp.reservations = r0 :: rs → r0.instances = [] →
      (GetClusterName c meta ec2).1 = .error (noInstancesMsg iid)) ∧
    (∀ r0 rs i0 is', resp.reservations = r0 :: rs → r0.instances = i0 :: is' →
      i0.tags = [] →
      (GetClusterName c meta ec2).1 = .error (noTagsMsg iid)) ∧
    (∀ r0 rs i0 is' t0 ts, resp.reservations = r0 :: rs → r0.instances = i0 :: is' →
      i0.tags = t0 :: ts → getClusterName (t0 :: ts) = "" →
      (GetClusterName c meta ec2).1 = .error (tagNotFoundMsg iid)) ∧
    noReservationsMsg iid ≠ noInstancesMsg iid ∧
    noReservationsMsg iid ≠ noTagsMsg iid ∧
    noReservationsMsg iid ≠ tagNotFoundMsg iid ∧
    noInstancesMsg iid ≠ noTagsMsg iid ∧
    noInstancesMsg iid ≠ tagNotFoundMsg iid ∧
    noTagsMsg iid ≠ tagNotFoundMsg iid := by
  refine ⟨?_, ?_, ?_, ?_, ?_, ?_, ?_, ?_, ?_, ?_⟩
  · intro hres
    simp [GetClusterName, hcn, hmeta, hec2, hres]
  · intro r0 rs hres hinst
    simp [GetClusterName, hcn, hmeta, hec2, hres, hinst]
  · intro r0 rs i0 is' hres hinst htags
    simp [GetClusterName, hcn, hmeta, hec2, hres, hinst, htags]
  · intro r0 rs i0 is' t0 ts hres hinst htags hname
    simp [GetClusterName, hcn, hmeta, hec2, hres, hinst, htags, hname]
  · exact append_ne_append_left iid (by decide)
  · exact append_ne_append_left iid (by decide)
  · exact append_ne_append_left iid (by decide)
  · exact append_ne_append_left iid (by decide)
  · exact append_ne_append_left iid (by decide)
  · exact append_ne_append_left iid (by decide)

/-- Witness for C3: on a fresh client with an all-success metadata fixture and
a describe call returning zero reservations, GetClusterName fails with the "no
reservations" error. -/
theorem GetClusterName_distinct_errors_witness :
    (GetClusterName initialClient metaFix ec2NoReservations).1 =
      .error (noReservationsMsg "i-1") :=
  (GetClusterName_distinct_errors initialClient metaFix ec2NoReservations "i-1" ⟨[]⟩
    rfl rfl rfl).1 rfl

/-- C4 counterexample: applying WithEC2Client to the fresh client (whose
region is unset) does not return an error — it dereferences the nil region
and panics, even though session creation itself would succeed. -/
theorem WithEC2Client_unset_region_no_error :
    WithEC2Client (fun _ => .ok ()) initialClient = .panicked nilDerefMsg ∧
    (WithEC2Client (fun _ => .ok ()) initialClient).isErr = false := ⟨rfl, rfl⟩

/-- C4 as amended: with the region unset, WithEC2Client panics on the nil
region dereference rather than returning an error; with the region set it
returns a wrapped error exactly when session creation fails, and otherwise
installs the session and EC2 handles. -/
theorem WithEC2Client_region_behavior
    (newSession : String → Except String Unit) (c : ClientState) :
    (c.region = none → WithEC2Client newSession c = .panicked nilDerefMsg) ∧
    (∀ r e, c.region = some r → newSession r = .error e →
      WithEC2Client newSession c = .err ("creating aws sdk session: " ++ e)) ∧
    (∀ r, c.region = some r → newSession r = .ok () →
      WithEC2Client newSession c = .ok { c with hasSess := true, hasEc2Client := true }) := by
  refine ⟨?_, ?_, ?_⟩
  · intro h; simp [WithEC2Client, h]
  · intro r e hr hs; simp [WithEC2Client, hr, hs]
  · intro r hr hs; simp [WithEC2Client, hr, hs]

/-- C5: each scalar getter returns the cached field with zero remote calls
when it is set, and after a successful call the repeated call returns the
identical value with zero further remote calls — so two calls in succession
perform the remote lookup at most once. -/
theorem getters_memoize (c : ClientState) (meta : MetaClient) (ec2 : Ec2Api) :
    (∀ r, c.region = some r → GetRegion c meta = (.ok r, c, 0)) ∧
    (∀ v, (GetRegion c meta).1 = .ok v →
      GetRegion (GetRegion c meta).2.1 meta = (.ok v, (GetRegion c meta).2.1, 0)) ∧
    (∀ a, c.accountID = some a → GetAccountID c meta = (.ok a, c, 0)) ∧
    (∀ v, (GetAccountID c meta).1 = .ok v →
      GetAccountID (GetAccountID c meta).2.1 meta = (.ok v, (GetAccountID c meta).2.1, 0)) ∧
    (∀ n, c.clusterName = some n → GetClusterName c meta ec2 = (.ok n, c, 0)) ∧
    (∀ v, (GetClusterName c meta ec2).1 = .ok v →
      GetClusterName (GetClusterName c meta ec2).2.1 meta ec2 =
        (.ok v, (GetClusterName c meta ec2).2.1, 0)) := by
  refine ⟨?_, ?_, ?_, ?_, ?_, ?_⟩
  · intro r hr; simp [GetRegion, hr]
  · intro v hv
    rcases GetRegion_shape c meta with ⟨r, hr, heq⟩ | ⟨e, heq⟩ | ⟨r, heq⟩
    · rw [heq] at hv ⊢
      simp only at hv
      cases hv
      simp [GetRegion, hr]
    · rw [heq] at hv; simp at hv
    · rw [heq] at hv ⊢
      simp only at hv
      cases hv
      simp [GetRegion]
  · intro a ha; simp [GetAccountID, ha]
  · intro v hv
    rcases GetAccountID_shape c meta with ⟨a, ha, heq⟩ | ⟨e, heq⟩ | ⟨a, heq⟩
    · rw [heq] at hv ⊢
      simp only at hv
      cases hv
      simp [GetAccountID, ha]
    · rw [heq] at hv; simp at hv
    · rw [heq] at hv ⊢
      simp only at hv
      cases hv
      simp [GetAccountID]
  · intro n hn; simp [GetClusterName, hn]
  · intro v hv
    rcases GetClusterName_shape c meta ec2 with ⟨n, hn, heq⟩ | ⟨e, k, heq, hk⟩ | ⟨w, heq⟩
    · rw [heq] at hv ⊢
      simp only at hv
      cases hv
      simp [GetClusterName, hn]
    · rw [heq] at hv; simp at hv
    · rw [heq] at hv ⊢
      simp only at hv
      cases hv
      simp [GetClusterName]

/-- C6: New applies the steps in order to the fresh zero-valued client; when
the steps so far succeeded and the next step returns an error, New returns
exactly that error, whatever steps follow — they never influence the outcome. -/
theorem New_fail_fast (os1 : List Opt) (o : Opt) (rest : List Opt)
    (c1 : ClientState) (e : String)
    (hok : runOpts os1 initialClient = .ok c1) (hfail : o c1 = .err e) :
    New (os1 ++ o :: rest) = .err e ∧
    (∀ rest', New (os1 ++ o :: rest') = .err e) ∧
    initialClient.region = none ∧ initialClient.accountID = none ∧
    initialClient.clusterName = none := by
  have key : ∀ rs : List Opt, New (os1 ++ o :: rs) = .err e := by
    intro rs
    rw [New, runOpts_append_ok os1 (o :: rs) initialClient c1 hok]
    simp [runOpts, hfail]
  exact ⟨key rest, key, rfl, rfl, rfl⟩

/-- Witness for C6: of three steps where the second fails (its metadata
session cannot be created), New returns the second step's error and the third
step never affects the result. -/
theorem New_fail_fast_witness :
    New [WithMetadata "123" "us-east-1" "prod",
         WithMetadataDiscovery (.error "boom") metaFix,
         WithMetadata "x" "y" "z"] =
      .err ("creating metadata session: " ++ "boom") :=
  (New_fail_fast [WithMetadata "123" "us-east-1" "prod"]
    (WithMetadataDiscovery (.error "boom") metaFix) [WithMetadata "x" "y" "z"]
    { initialClient with
        accountID := some "123", region := some "us-east-1", clusterName := some "prod" }
    ("creating metadata session: " ++ "boom") rfl rfl).1

/-- C7: when the describe call fails on some chunk (all earlier chunks having
succeeded), the batch lookup returns that error wrapped, with no instance
list — results accumulated from the earlier chunks are discarded. -/
theorem GetInstancesByInstanceIDs_abort_on_error (ec2 : Ec2Api) (ids : List String)
    (bs1 : List (List String)) (b : List String) (bs2 : List (List String)) (e : String)
    (hsplit : chunksOf ids = bs1 ++ b :: bs2)
    (hok : ∀ b' ∈ bs1, ∃ out, ec2 (batchRequest b') = .ok out)
    (hfail : ec2 (batchRequest b) = .error e) :
    (GetInstancesByInstanceIDs ec2 ids).1 = .error ("describing instances: " ++ e) := by
  rw [GetInstancesByInstanceIDs, hsplit]
  exact runBatches_abort ec2 bs1 b bs2 e hok hfail []

/-- Witness for C7: a one-chunk lookup whose describe call fails returns the
wrapped error and no instances. -/
theorem GetInstancesByInstanceIDs_abort_witness :
    (GetInstancesByInstanceIDs (fun _ => .error "boom") ["i-1"]).1 =
      .error ("describing instances: " ++ "boom") :=
  GetInstancesByInstanceIDs_abort_on_error (fun _ => .error "boom") ["i-1"] [] ["i-1"] [] "boom"
    (by decide) (by simp) rfl

/-- C8: the batch lookup on an empty identifier list issues zero describe
calls and returns the empty instance list with no error. -/
theorem GetInstancesByInstanceIDs_empty (ec2 : Ec2Api) :
    GetInstancesByInstanceIDs ec2 [] = (.ok [], []) := rfl

/-- C9: a tag whose key is exactly the ownership prefix "k8s.io/cluster/"
with value "owned" makes the tag scan return the empty string, which
GetClusterName treats as its not-found sentinel: discovery fails with the
"cluster tag not found" error instead of returning an empty cluster name. -/
theorem getClusterName_empty_sentinel :
    getClusterName [some ⟨some tagEKSK8sCluster, some owned⟩] = "" ∧
    (GetClusterName initialClient metaFix ec2OwnedRootTag).1 =
      .error (tagNotFoundMsg "i-1") := ⟨by decide, rfl⟩

/-- C10: when a scalar getter's discovery fails, the client state is returned
unchanged (the field stays unset), at least one remote call was made, and a
repeated call runs the identical discovery again instead of returning a
cached failure. -/
theorem getters_state_unchanged_on_error (c : ClientState) (meta : MetaClient) (ec2 : Ec2Api) :
    (∀ e, (GetRegion c meta).1 = .error e →
      (GetRegion c meta).2.1 = c ∧ 1 ≤ (GetRegion c meta).2.2 ∧
      GetRegion (GetRegion c meta).2.1 meta = GetRegion c meta) ∧
    (∀ e, (GetAccountID c meta).1 = .error e →
      (GetAccountID c meta).2.1 = c ∧ 1 ≤ (GetAccountID c meta).2.2 ∧
      GetAccountID (GetAccountID c meta).2.1 meta = GetAccountID c meta) ∧
    (∀ e, (GetClusterName c meta ec2).1 = .error e →
      (GetClusterName c meta ec2).2.1 = c ∧ 1 ≤ (GetClusterName c meta ec2).2.2 ∧
      GetClusterName (GetClusterName c meta ec2).2.1 meta ec2 = GetClusterName c meta ec2) := by
  refine ⟨?_, ?_, ?_⟩
  · intro e he
    rcases GetRegion_shape c meta with ⟨r, hr, heq⟩ | ⟨e', heq⟩ | ⟨r, heq⟩
    · rw [heq] at he; simp at he
    · exact ⟨by rw [heq], by rw [heq], by rw [heq]; exact heq⟩
    · rw [heq] at he; simp at he
  · intro e he
    rcases GetAccountID_shape c meta with ⟨a, ha, heq⟩ | ⟨e', heq⟩ | ⟨a, heq⟩
    · rw [heq] at he; simp at he
    · exact ⟨by rw [heq], by rw [heq], by rw [heq]; exact heq⟩
    · rw [heq] at he; simp at he
  · intro e he
    rcases GetClusterName_shape c meta ec2 with ⟨n, hn, heq⟩ | ⟨e', k, heq, hk⟩ | ⟨w, heq⟩
    · rw [heq] at he; simp at he
    · exact ⟨by rw [heq], by rw [heq]; simpa using hk, by rw [heq]; exact heq⟩
    · rw [heq] at he; simp at he

end AwsClient
